import Mathlib

/-!
Verification of the map-annotation subsystem of the buying-house-note
application. The definitions below are shallow embeddings of the TypeScript
source: JavaScript numbers are modelled as exact rationals (`ℚ`), screen
points used by the connector geometry as real-valued points, collections as
lists, and fallible operations as `Option`/`Except` values.
-/

/-- Embeds `GeoLocation` from `types.ts`. -/
structure GeoLocation where
  lat : ℚ
  lng : ℚ
deriving DecidableEq, Repr

/-- Embeds the `'image' | 'video' | 'audio'` union used by media records. -/
inductive MediaKind
  | image
  | video
  | audio
deriving DecidableEq, Repr

/-- Embeds `NoteMedia` from `types.ts`. -/
structure NoteMedia where
  type : MediaKind
  url : String
  name : Option String
  timestamp : ℚ
  x : Option ℚ
  y : Option ℚ
  width : Option ℚ
  rotation : Option ℚ
  zIndex : Option ℚ
deriving DecidableEq, Repr

/-- Embeds `MediaNote` (map sticker) from `types.ts`. -/
structure MediaNote where
  id : String
  type : MediaKind
  url : String
  position : GeoLocation
  rotation : ℚ
  timestamp : ℚ
  duration : Option ℚ
deriving DecidableEq, Repr

/-- Embeds `FloorPlan` from `types.ts`. -/
structure FloorPlan where
  id : String
  size : String
  label : String
  isFavorite : Bool
deriving DecidableEq, Repr

/-- Embeds the `'existing' | 'off-plan'` union from `types.ts`. -/
inductive ListingType
  | existing
  | offPlan
deriving DecidableEq, Repr

/-- Embeds `Property` from `types.ts`. -/
structure Property where
  id : String
  name : String
  location : GeoLocation
  price : Option ℚ
  priceUnit : Option String
  area : Option ℚ
  tags : List String
  rating : ℚ
  notes : String
  media : List NoteMedia
  pros : List String
  cons : List String
  category : Option String
  floorPlans : Option (List FloorPlan)
  discountPolicy : Option String
  discountDeadline : Option String
  createdAt : ℚ
  listingType : Option ListingType
  hasViewed : Option Bool
deriving DecidableEq, Repr

/-- Embeds `LifePin` from `types.ts`. -/
structure LifePin where
  id : String
  name : String
  location : GeoLocation
deriving DecidableEq, Repr

/-- Embeds `YarnConnection` from `types.ts`. -/
structure YarnConnection where
  id : String
  propertyId : String
  pinId : String
deriving DecidableEq, Repr

/-- Embeds `MapPath` from `types.ts` (the `PencilColor` union is a string). -/
structure MapPath where
  id : String
  coords : List GeoLocation
  color : String
  timestamp : ℚ
deriving DecidableEq, Repr

/-- Embeds `MapBoardMode` from `types.ts` (`'connect-line'` is `connectLine`). -/
inductive MapBoardMode
  | browse
  | add_pin
  | pencil
  | eraser
  | add_life_pin
  | connectLine
deriving DecidableEq, Repr

/-! ### geminiService.ts -/

/-- Embeds the per-property projection built inside the prompt of
`analyzeProperties` (`name`, `price`, `area`, `rating`, `notes`, `pros`,
`cons`). -/
structure PromptProperty where
  name : String
  price : Option ℚ
  area : Option ℚ
  rating : ℚ
  notes : String
  pros : List String
  cons : List String
deriving DecidableEq, Repr

/-- Observable outcome of `analyzeProperties`: either the early-return string
(no prompt built, no request issued) or a request carrying the preference
context and the projected property payload. -/
inductive AnalyzeResult
  | earlyReturn (msg : String)
  | request (preferenceContext : String) (payload : List PromptProperty)
deriving DecidableEq, Repr

/-- Embeds the `preferenceContext` ternary of `analyzeProperties` in
`services/geminiService.ts`. -/
def preferenceContextOf (preferences : List String) : String :=
  if 0 < preferences.length then
    "用户特别强调以下核心需求（请将其作为最高权重的评判标准）：" ++ String.intercalate "、" preferences ++ "。"
  else
    "用户未指定特定偏好，请基于通用居住标准（如性价比、舒适度、便利性）进行均衡分析。"

/-- Embeds `analyzeProperties` from `services/geminiService.ts` up to the
point where the request is issued: fewer than two properties short-circuit
to a fixed message, otherwise the prompt data is assembled. -/
def analyzeProperties (properties : List Property) (preferences : List String) :
    AnalyzeResult :=
  if properties.length < 2 then
    AnalyzeResult.earlyReturn "请至少添加两个房源以生成AI对比分析。"
  else
    AnalyzeResult.request (preferenceContextOf preferences)
      (properties.map fun p =>
        { name := p.name, price := p.price, area := p.area, rating := p.rating,
          notes := p.notes, pros := p.pros, cons := p.cons })

/-! ### Local-storage lazy initializers (App in part_007, MapBoard in part_002) -/

/-- Embeds the `try { const saved = getItem(key); return saved ?
JSON.parse(saved) : fallback } catch { return fallback }` initializer
pattern. A missing key or the empty string (falsy in JavaScript) yields the
fallback, and a parse failure is caught and also yields the fallback. -/
def lazyInit {α : Type} (stored : Option String) (parse : String → Except String α)
    (fallback : α) : α :=
  match stored with
  | none => fallback
  | some s =>
    if s = "" then fallback
    else
      match parse s with
      | Except.ok v => v
      | Except.error _ => fallback

/-- Embeds the `hb_notes_properties` initializer in App (part_007). -/
def initProperties (stored : Option String)
    (parse : String → Except String (List Property)) : List Property :=
  lazyInit stored parse []

/-- Embeds the `hb_notes_categories` initializer in App (part_007); its
fallback is the default category list, not the empty list. -/
def initCategories (stored : Option String)
    (parse : String → Except String (List String)) : List String :=
  lazyInit stored parse ["全部", "意向", "已看"]

/-- Embeds the `hb_notes_paths` initializer in MapBoard (part_002). -/
def initPaths (stored : Option String)
    (parse : String → Except String (List MapPath)) : List MapPath :=
  lazyInit stored parse []

/-- Embeds the `hb_notes_stickers` initializer in MapBoard (part_002). -/
def initStickers (stored : Option String)
    (parse : String → Except String (List MediaNote)) : List MediaNote :=
  lazyInit stored parse []

/-- Embeds the `hb_notes_life_pins` initializer in MapBoard (part_002). -/
def initLifePins (stored : Option String)
    (parse : String → Except String (List LifePin)) : List LifePin :=
  lazyInit stored parse []

/-- Embeds the `hb_notes_yarns` initializer in MapBoard (part_002). -/
def initYarnConnections (stored : Option String)
    (parse : String → Except String (List YarnConnection)) : List YarnConnection :=
  lazyInit stored parse []

/-! ### Toolbar tool buttons (MapBoard render, part_002) -/

/-- Embeds the add-property-pin tool button `onClick`:
`setMode(mode === 'add_pin' ? 'browse' : 'add_pin')`. -/
def addPinToolClick (mode : MapBoardMode) : MapBoardMode :=
  if mode = MapBoardMode.add_pin then MapBoardMode.browse else MapBoardMode.add_pin

/-- Embeds the add-life-pin tool button `onClick`. -/
def addLifePinToolClick (mode : MapBoardMode) : MapBoardMode :=
  if mode = MapBoardMode.add_life_pin then MapBoardMode.browse else MapBoardMode.add_life_pin

/-- Embeds the connect-line tool button `onClick`. -/
def connectLineToolClick (mode : MapBoardMode) : MapBoardMode :=
  if mode = MapBoardMode.connectLine then MapBoardMode.browse else MapBoardMode.connectLine

/-- Embeds the eraser tool button `onClick`. -/
def eraserToolClick (mode : MapBoardMode) : MapBoardMode :=
  if mode = MapBoardMode.eraser then MapBoardMode.browse else MapBoardMode.eraser

/-- Embeds the pencil tool button `onClick`: when the pencil is already the
active mode it only toggles the colour picker and keeps the mode; otherwise
it enters pencil mode and opens the picker. Returns (new mode, new
`showColorPicker`). -/
def pencilToolClick (mode : MapBoardMode) (showColorPicker : Bool) :
    MapBoardMode × Bool :=
  if mode = MapBoardMode.pencil then (mode, !showColorPicker)
  else (MapBoardMode.pencil, true)

/-! ### Undo (handleUndo in MapBoard, part_002) -/

/-- Embeds `handleUndo`: compares the last path and last sticker, removes the
path when it is strictly newer (or the only candidate), otherwise removes the
last sticker; a no-op when both collections are empty. -/
def handleUndo (paths : List MapPath) (stickers : List MediaNote) :
    List MapPath × List MediaNote :=
  match paths.getLast?, stickers.getLast? with
  | none, none => (paths, stickers)
  | some _, none => (paths.dropLast, stickers)
  | none, some _ => (paths, stickers.dropLast)
  | some lastPath, some lastSticker =>
    if lastPath.timestamp > lastSticker.timestamp then (paths.dropLast, stickers)
    else (paths, stickers.dropLast)

/-! ### Deletion cascade (App in part_007, MapBoard zombie cleanup in part_002) -/

/-- Embeds the zombie-cleanup `useEffect` in MapBoard: connections whose
`propertyId` no longer occurs in the property list are filtered out; when
nothing is filtered the previous list is returned unchanged. -/
def zombieCleanup (properties : List Property) (prev : List YarnConnection) :
    List YarnConnection :=
  let valid := prev.filter (fun c => properties.any (fun p => p.id == c.propertyId))
  if valid.length ≠ prev.length then valid else prev

/-- Embeds App's `handleDeleteProperty` state update:
`prev.filter(p => p.id !== id)`. -/
def handleDeleteProperty (prev : List Property) (id : String) : List Property :=
  prev.filter (fun p => !(p.id == id))

/-- Composition of a property deletion with the reactive zombie cleanup that
runs once the property list changes. -/
def deletePropertyCascade (props : List Property) (conns : List YarnConnection)
    (id : String) : List Property × List YarnConnection :=
  let props' := handleDeleteProperty props id
  (props', zombieCleanup props' conns)

/-- Embeds the `'pin'` branch of `handleConfirmDelete` in MapBoard: the pin is
filtered out of the pin list and connections referencing it are filtered out
of the connection list. -/
def handleConfirmDeletePin (pins : List LifePin) (conns : List YarnConnection)
    (id : String) : List LifePin × List YarnConnection :=
  (pins.filter (fun p => !(p.id == id)), conns.filter (fun y => !(y.pinId == id)))

/-! ### Connect-line node clicks (handleNodeClick in MapBoard, part_002) -/

/-- Embeds the `'property' | 'pin'` node kind used by `handleNodeClick`. -/
inductive NodeType
  | property
  | pin
deriving DecidableEq, Repr

/-- Embeds the `connectStartNode` record (id, type, lat, lng). -/
structure ConnectNode where
  id : String
  type : NodeType
  lat : ℚ
  lng : ℚ
deriving DecidableEq, Repr

/-- Embeds the `deleteTarget` record set in eraser mode. -/
structure DeleteTarget where
  id : String
  type : NodeType
deriving DecidableEq, Repr

/-- Embeds the connection-toggle block of `handleNodeClick` (part_002 lines
908-923): find an existing connection for the pair; if found, filter the
collection by that connection's id, otherwise append a fresh connection whose
id is the `Date.now()` string (`newId`). -/
def toggleConnection (yarnConnections : List YarnConnection)
    (newId propId pinId : String) : List YarnConnection :=
  match yarnConnections.find? (fun y => y.propertyId == propId && y.pinId == pinId) with
  | some existing => yarnConnections.filter (fun y => !(y.id == existing.id))
  | none => yarnConnections ++ [{ id := newId, propertyId := propId, pinId := pinId }]

/-- Whether some connection links the given property/pin pair. -/
def isConnected (conns : List YarnConnection) (propId pinId : String) : Bool :=
  conns.any (fun y => y.propertyId == propId && y.pinId == pinId)

/-- Observable outcome of one `handleNodeClick` call: the updated pending
start node and connection list, the alert message if one was raised, the
delete target if one was set, and the property selected in browse mode. -/
structure NodeClickResult where
  connectStartNode : Option ConnectNode
  yarnConnections : List YarnConnection
  alert : Option String
  deleteTarget : Option DeleteTarget
  propertySelect : Option String
deriving DecidableEq, Repr

/-- Embeds `handleNodeClick` from MapBoard (part_002 lines 873-931). -/
def handleNodeClick (mode : MapBoardMode) (connectStartNode : Option ConnectNode)
    (yarnConnections : List YarnConnection) (deleteTarget : Option DeleteTarget)
    (newId : String) (id : String) (ty : NodeType) (lat lng : ℚ) : NodeClickResult :=
  if mode = MapBoardMode.eraser then
    { connectStartNode := connectStartNode, yarnConnections := yarnConnections,
      alert := none, deleteTarget := some { id := id, type := ty },
      propertySelect := none }
  else if mode = MapBoardMode.connectLine then
    match connectStartNode with
    | none =>
      { connectStartNode := some { id := id, type := ty, lat := lat, lng := lng },
        yarnConnections := yarnConnections, alert := none,
        deleteTarget := deleteTarget, propertySelect := none }
    | some startNode =>
      if startNode.id = id then
        { connectStartNode := none, yarnConnections := yarnConnections,
          alert := none, deleteTarget := deleteTarget, propertySelect := none }
      else
        match startNode.type, ty with
        | NodeType.property, NodeType.pin =>
          { connectStartNode := none,
            yarnConnections := toggleConnection yarnConnections newId startNode.id id,
            alert := none, deleteTarget := deleteTarget, propertySelect := none }
        | NodeType.pin, NodeType.property =>
          { connectStartNode := none,
            yarnConnections := toggleConnection yarnConnections newId id startNode.id,
            alert := none, deleteTarget := deleteTarget, propertySelect := none }
        | _, _ =>
          { connectStartNode := none, yarnConnections := yarnConnections,
            alert := some "请连接【房源】与【生活圈图钉】。", deleteTarget := deleteTarget,
            propertySelect := none }
  else
    { connectStartNode := connectStartNode, yarnConnections := yarnConnections,
      alert := none, deleteTarget := deleteTarget,
      propertySelect := if ty = NodeType.property then some id else none }

/-! ### Rotation snapping (FloorPlanManager.tsx, ROTATE branch) -/

/-- Truncation toward zero, as used by the JavaScript `%` operator. -/
def jsTrunc (q : ℚ) : ℤ :=
  if 0 ≤ q then ⌊q⌋ else ⌈q⌉

/-- Embeds the JavaScript remainder operator `a % b` on numbers:
`a - b * trunc(a / b)`. -/
def jsMod (a b : ℚ) : ℚ :=
  a - b * jsTrunc (a / b)

/-- Embeds the snap block of the ROTATE branch in
`FloorPlanManager.tsx` (`handlePointerUp`, lines 303-309): `remainder =
(degrees % snap + snap) % snap` with `snap = 45`, `threshold = 5`, then
subtract the remainder when it is below the threshold and round up when it is
above `snap - threshold`. -/
def snapRotationDegrees (degrees : ℚ) : ℚ :=
  let remainder := jsMod (jsMod degrees 45 + 45) 45
  let degrees1 := if remainder < 5 then degrees - remainder else degrees
  if remainder > 45 - 5 then degrees1 + (45 - remainder) else degrees1

/-- Embeds the ±180° wraparound applied to the angular delta. -/
def wrapDelta (delta : ℚ) : ℚ :=
  let d1 := if delta > 180 then delta - 360 else delta
  if d1 < -180 then d1 + 360 else d1

/-- Embeds the full rotation commit of `handlePointerUp`: the wrapped
angular delta is added to the stored rotation and the result snapped. -/
def commitRotation (rotation startAngle currentAngle : ℚ) : ℚ :=
  snapRotationDegrees (rotation + wrapDelta (currentAngle - startAngle))

/-! ### Distance label (updateGeometry in YarnOverlay.tsx) -/

/-- Embeds JavaScript `Math.round`: round half toward positive infinity. -/
def jsRound (x : ℚ) : ℤ :=
  ⌊x + 1 / 2⌋

/-- Embeds `Number.prototype.toFixed(1)` for the km label: the value rounded
to tenths, rendered with one decimal digit. -/
def jsToFixed1 (x : ℚ) : String :=
  let t : ℤ := ⌊10 * x + 1 / 2⌋
  toString (t / 10) ++ "." ++ toString (t % 10)

/-- Embeds the distance-label ternary of `updateGeometry` in
`YarnOverlay.tsx`: `d > 1000 ? `${(d/1000).toFixed(1)}km` :
`${Math.round(d)}m``. -/
def formatDistance (d : ℚ) : String :=
  if d > 1000 then jsToFixed1 (d / 1000) ++ "km" else toString (jsRound d) ++ "m"

/-! ### Connector sag geometry (updateGeometry in YarnOverlay.tsx) -/

/-- Embeds Leaflet's `L.Point` in layer-pixel space. -/
structure LPoint where
  x : ℝ
  y : ℝ

/-- Embeds `L.Point.distanceTo`: the Euclidean pixel distance. -/
noncomputable def LPoint.distanceTo (p q : LPoint) : ℝ :=
  Real.sqrt ((q.x - p.x) ^ 2 + (q.y - p.y) ^ 2)

/-- Embeds `L.Point.add`. -/
def LPoint.add (p q : LPoint) : LPoint :=
  ⟨p.x + q.x, p.y + q.y⟩

/-- Embeds `L.Point.divideBy`. -/
noncomputable def LPoint.divideBy (p : LPoint) (num : ℝ) : LPoint :=
  ⟨p.x / num, p.y / num⟩

/-- Embeds the sag amount of `updateGeometry`:
`Math.min(pixelDist * 0.15, 80)`. -/
noncomputable def sagPx (startPx endPx : LPoint) : ℝ :=
  min (LPoint.distanceTo startPx endPx * 0.15) 80

/-- Embeds the control-point computation of `updateGeometry`: the midpoint of
the two offset pixel points displaced downward in `y` by the sag amount. -/
noncomputable def yarnControlPoint (startPx endPx : LPoint) : LPoint :=
  let midPx := (startPx.add endPx).divideBy 2
  ⟨midPx.x, midPx.y + sagPx startPx endPx⟩

/-- Every connection surviving `zombieCleanup` references a property that is
present in the given property list. -/
theorem zombieCleanup_mem (properties : List Property) (prev : List YarnConnection) :
    ∀ c ∈ zombieCleanup properties prev,
      ∃ p ∈ properties, p.id = c.propertyId := by
  intro c hc
  have hpred : properties.any (fun p => p.id == c.propertyId) = true := by
    unfold zombieCleanup at hc
    by_cases hlen : (prev.filter
        (fun c => properties.any (fun p => p.id == c.propertyId))).length = prev.length
    · simp only [hlen, ne_eq, not_true_eq_false, if_false] at hc
      exact (List.filter_length_eq_length.mp hlen) c hc
    · simp only [ne_eq, hlen, not_false_eq_true, if_true] at hc
      exact (List.mem_filter.mp hc).2
  obtain ⟨p, hp, hpc⟩ := List.any_eq_true.mp hpred
  exact ⟨p, hp, by simpa using hpc⟩

/-! ### Theorems -/

/-- C10: `analyzeProperties` with fewer than two properties returns the fixed
early-return string and does not assemble a request, regardless of the
preferences argument. -/
theorem analyzeProperties_short_circuit (properties : List Property)
    (preferences : List String) (h : properties.length < 2) :
    analyzeProperties properties preferences =
      AnalyzeResult.earlyReturn "请至少添加两个房源以生成AI对比分析。" := by
  simp [analyzeProperties, h]

/-- Witness for C10 at the empty property list. -/
theorem analyzeProperties_short_circuit_witness :
    ([] : List Property).length < 2 ∧
      analyzeProperties [] ["学区"] =
        AnalyzeResult.earlyReturn "请至少添加两个房源以生成AI对比分析。" :=
  ⟨by decide, analyzeProperties_short_circuit [] ["学区"] (by decide)⟩

/-- C9 counterexample: a missing `hb_notes_categories` key does not yield an
empty collection — it yields the default category list. -/
theorem initCategories_missing_key_not_empty :
    initCategories none (fun _ => Except.error "malformed") ≠ ([] : List String) := by
  decide

/-- C9 (amended): on a missing key or malformed JSON every load recovers
without propagating the error, yielding the empty collection for properties,
paths, stickers, life pins and yarn connections, and the default category
list `["全部", "意向", "已看"]` for categories. -/
theorem storage_load_fallbacks
    (pProps : String → Except String (List Property))
    (pCats : String → Except String (List String))
    (pPaths : String → Except String (List MapPath))
    (pStickers : String → Except String (List MediaNote))
    (pPins : String → Except String (List LifePin))
    (pYarns : String → Except String (List YarnConnection))
    (s e : String) :
    (initProperties none pProps = [] ∧
      (pProps s = Except.error e → initProperties (some s) pProps = [])) ∧
    (initCategories none pCats = ["全部", "意向", "已看"] ∧
      (pCats s = Except.error e →
        initCategories (some s) pCats = ["全部", "意向", "已看"])) ∧
    (initPaths none pPaths = [] ∧
      (pPaths s = Except.error e → initPaths (some s) pPaths = [])) ∧
    (initStickers none pStickers = [] ∧
      (pStickers s = Except.error e → initStickers (some s) pStickers = [])) ∧
    (initLifePins none pPins = [] ∧
      (pPins s = Except.error e → initLifePins (some s) pPins = [])) ∧
    (initYarnConnections none pYarns = [] ∧
      (pYarns s = Except.error e → initYarnConnections (some s) pYarns = [])) := by
  refine ⟨⟨rfl, ?_⟩, ⟨rfl, ?_⟩, ⟨rfl, ?_⟩, ⟨rfl, ?_⟩, ⟨rfl, ?_⟩, ⟨rfl, ?_⟩⟩ <;>
    intro h <;>
    by_cases hs : s = "" <;>
    simp [initProperties, initCategories, initPaths, initStickers, initLifePins,
      initYarnConnections, lazyInit, hs, h]

/-- Witness for C9's amended theorem: concrete failing parses recover to the
per-collection fallback values. -/
theorem storage_load_fallbacks_witness :
    initProperties (some "not json") (fun _ => Except.error "bad") = [] ∧
      initCategories (some "not json") (fun _ => Except.error "bad") =
        ["全部", "意向", "已看"] := by
  have h := storage_load_fallbacks (fun _ => Except.error "bad")
    (fun _ => Except.error "bad") (fun _ => Except.error "bad")
    (fun _ => Except.error "bad") (fun _ => Except.error "bad")
    (fun _ => Except.error "bad") "not json" "bad"
  exact ⟨h.1.2 rfl, h.2.1.2 rfl⟩

/-- C8 counterexample: clicking the pencil tool while pencil mode is already
active keeps pencil mode (it only toggles the colour picker); it does not
return to browse. -/
theorem pencilToolClick_active_stays_pencil :
    (pencilToolClick MapBoardMode.pencil true).1 = MapBoardMode.pencil ∧
      (pencilToolClick MapBoardMode.pencil true).1 ≠ MapBoardMode.browse := by
  decide

/-- C8 (amended): activating the add-property-pin, add-life-pin, connect-line
or eraser control while its mode is already active returns to browse; the
pencil control instead keeps pencil mode and toggles the colour picker. -/
theorem toolToggle_active_behaviour :
    addPinToolClick MapBoardMode.add_pin = MapBoardMode.browse ∧
    addLifePinToolClick MapBoardMode.add_life_pin = MapBoardMode.browse ∧
    connectLineToolClick MapBoardMode.connectLine = MapBoardMode.browse ∧
    eraserToolClick MapBoardMode.eraser = MapBoardMode.browse ∧
    ∀ picker : Bool,
      pencilToolClick MapBoardMode.pencil picker = (MapBoardMode.pencil, !picker) := by
  decide

/-- C5: undo is a no-op on two empty collections, removes the last element of
the non-empty collection when only one is non-empty, removes exactly one
element when both are non-empty, and in that case removes the last path when
it is strictly newer and the last sticker when that one is strictly newer. -/
theorem handleUndo_spec (paths : List MapPath) (stickers : List MediaNote) :
    (paths = [] → stickers = [] → handleUndo paths stickers = (paths, stickers)) ∧
    (paths ≠ [] → stickers = [] →
      handleUndo paths stickers = (paths.dropLast, stickers)) ∧
    (paths = [] → stickers ≠ [] →
      handleUndo paths stickers = (paths, stickers.dropLast)) ∧
    (paths ≠ [] → stickers ≠ [] →
      (handleUndo paths stickers).1.length + (handleUndo paths stickers).2.length + 1 =
        paths.length + stickers.length) ∧
    (∀ lp ls, paths.getLast? = some lp → stickers.getLast? = some ls →
      ls.timestamp < lp.timestamp →
      handleUndo paths stickers = (paths.dropLast, stickers)) ∧
    (∀ lp ls, paths.getLast? = some lp → stickers.getLast? = some ls →
      lp.timestamp ≤ ls.timestamp →
      handleUndo paths stickers = (paths, stickers.dropLast)) := by
  have lastp : paths ≠ [] → ∃ lp, paths.getLast? = some lp := by
    intro hp
    cases h : paths.getLast? with
    | none => exact absurd (List.getLast?_eq_none_iff.mp h) hp
    | some lp => exact ⟨lp, rfl⟩
  have lasts : stickers ≠ [] → ∃ ls, stickers.getLast? = some ls := by
    intro hs
    cases h : stickers.getLast? with
    | none => exact absurd (List.getLast?_eq_none_iff.mp h) hs
    | some ls => exact ⟨ls, rfl⟩
  refine ⟨?_, ?_, ?_, ?_, ?_, ?_⟩
  · intro hp hs
    subst hp
    subst hs
    rfl
  · intro hp hs
    subst hs
    obtain ⟨lp, hlp⟩ := lastp hp
    simp [handleUndo, hlp]
  · intro hp hs
    subst hp
    obtain ⟨ls, hls⟩ := lasts hs
    simp [handleUndo, hls]
  · intro hp hs
    obtain ⟨lp, hlp⟩ := lastp hp
    obtain ⟨ls, hls⟩ := lasts hs
    have h1 : 1 ≤ paths.length := List.length_pos.mpr hp
    have h2 : 1 ≤ stickers.length := List.length_pos.mpr hs
    by_cases hcmp : lp.timestamp > ls.timestamp
    · simp only [handleUndo, hlp, hls, if_pos hcmp, List.length_dropLast]
      omega
    · simp only [handleUndo, hlp, hls, if_neg hcmp, List.length_dropLast]
      omega
  · intro lp ls hlp hls hlt
    simp [handleUndo, hlp, hls, hlt]
  · intro lp ls hlp hls hle
    have hcmp : ¬ lp.timestamp > ls.timestamp := not_lt.mpr hle
    simp [handleUndo, hlp, hls, hcmp]

/-- Witness for C5: a single path and no stickers — undo removes that path. -/
theorem handleUndo_spec_witness :
    handleUndo [{ id := "p1", coords := [], color := "#50B748", timestamp := 5 }] [] =
      ([], []) := by
  have h := (handleUndo_spec
    [{ id := "p1", coords := [], color := "#50B748", timestamp := 5 }] []).2.1
    (by decide) rfl
  simpa using h

/-- C1: after a property deletion (including the reactive cleanup) every
remaining connection references an existing property, and after a life-pin
deletion no remaining connection references the deleted pin; assuming all
connections referenced existing pins beforehand, they still do afterwards. -/
theorem delete_cascade_no_dangling (props : List Property) (pins : List LifePin)
    (conns : List YarnConnection) (pid lid : String) :
    (∀ c ∈ (deletePropertyCascade props conns pid).2,
      ∃ p ∈ (deletePropertyCascade props conns pid).1, p.id = c.propertyId) ∧
    (∀ c ∈ (handleConfirmDeletePin pins conns lid).2, c.pinId ≠ lid) ∧
    ((∀ c ∈ conns, ∃ q ∈ pins, q.id = c.pinId) →
      ∀ c ∈ (handleConfirmDeletePin pins conns lid).2,
        ∃ q ∈ (handleConfirmDeletePin pins conns lid).1, q.id = c.pinId) := by
  refine ⟨?_, ?_, ?_⟩
  · intro c hc
    exact zombieCleanup_mem (handleDeleteProperty props pid) conns c hc
  · intro c hc
    have := (List.mem_filter.mp hc).2
    simpa using this
  · intro hinv c hc
    have hcmem : c ∈ conns := (List.mem_filter.mp hc).1
    have hcpin : c.pinId ≠ lid := by
      have := (List.mem_filter.mp hc).2
      simpa using this
    obtain ⟨q, hq, hqid⟩ := hinv c hcmem
    refine ⟨q, ?_, hqid⟩
    refine List.mem_filter.mpr ⟨hq, ?_⟩
    simp [hqid, hcpin]

/-- Witness for C1: deleting pin `l1` from a two-pin, two-connection state
leaves only the connection to `l2`, which still references an existing pin. -/
theorem delete_cascade_no_dangling_witness :
    ∃ q ∈ (handleConfirmDeletePin
        [{ id := "l1", name := "学校", location := { lat := 1, lng := 2 } },
         { id := "l2", name := "公司", location := { lat := 3, lng := 4 } }]
        [{ id := "y1", propertyId := "p1", pinId := "l1" },
         { id := "y2", propertyId := "p1", pinId := "l2" }] "l1").1,
      q.id = YarnConnection.pinId { id := "y2", propertyId := "p1", pinId := "l2" } :=
  (delete_cascade_no_dangling []
    [{ id := "l1", name := "学校", location := { lat := 1, lng := 2 } },
     { id := "l2", name := "公司", location := { lat := 3, lng := 4 } }]
    [{ id := "y1", propertyId := "p1", pinId := "l1" },
     { id := "y2", propertyId := "p1", pinId := "l2" }] "x" "l1").2.2
    (by decide) { id := "y2", propertyId := "p1", pinId := "l2" } (by decide)

/-- Two members of a list of length at most one are equal. -/
theorem eq_of_length_le_one {α : Type} {l : List α} (h : l.length ≤ 1) {a b : α}
    (ha : a ∈ l) (hb : b ∈ l) : a = b := by
  cases l with
  | nil => cases ha
  | cons x xs =>
    cases xs with
    | nil =>
      have ha' : a = x := by simpa using ha
      have hb' : b = x := by simpa using hb
      rw [ha', hb']
    | cons y ys => simp at h

/-- When no connection links the pair, the toggle appends a fresh one. -/
theorem toggleConnection_not_connected (conns : List YarnConnection)
    (newId propId pinId : String) (h : isConnected conns propId pinId = false) :
    toggleConnection conns newId propId pinId =
      conns ++ [{ id := newId, propertyId := propId, pinId := pinId }] := by
  have hfind : conns.find? (fun y => y.propertyId == propId && y.pinId == pinId) = none := by
    rw [List.find?_eq_none]
    simp only [isConnected] at h
    rw [List.any_eq_false] at h
    exact h
  simp only [toggleConnection, hfind]

/-- When the pair is connected, connection ids are pairwise distinct and at
most one connection matches the pair, the toggle removes exactly the matching
connection. -/
theorem toggleConnection_connected (conns : List YarnConnection)
    (newId propId pinId : String)
    (hnodup : (conns.map YarnConnection.id).Nodup)
    (huniq : conns.countP (fun y => y.propertyId == propId && y.pinId == pinId) ≤ 1)
    (h : isConnected conns propId pinId = true) :
    toggleConnection conns newId propId pinId =
      conns.filter (fun y => !(y.propertyId == propId && y.pinId == pinId)) := by
  obtain ⟨w, hw, hwpred⟩ := List.any_eq_true.mp (by simpa only [isConnected] using h)
  obtain ⟨ex, hex⟩ : ∃ ex,
      conns.find? (fun y => y.propertyId == propId && y.pinId == pinId) = some ex := by
    cases hf : conns.find? (fun y => y.propertyId == propId && y.pinId == pinId) with
    | none => exact absurd hwpred (List.find?_eq_none.mp hf w hw)
    | some ex => exact ⟨ex, rfl⟩
  have hexmem : ex ∈ conns := List.mem_of_find?_eq_some hex
  have hexpred0 := List.find?_some hex
  have hexpred : (ex.propertyId == propId && ex.pinId == pinId) = true := by
    simpa using hexpred0
  simp only [toggleConnection, hex]
  apply List.filter_congr
  intro y hy
  by_cases hmatch : (y.propertyId == propId && y.pinId == pinId) = true
  · have hyex : y = ex := by
      apply eq_of_length_le_one
        (l := conns.filter (fun y => y.propertyId == propId && y.pinId == pinId))
      · rw [← List.countP_eq_length_filter]
        exact huniq
      · exact List.mem_filter.mpr ⟨hy, hmatch⟩
      · exact List.mem_filter.mpr ⟨hexmem, hexpred⟩
    subst hyex
    simp [hmatch]
  · have hyne : y ≠ ex := fun hcontr => hmatch (hcontr ▸ hexpred)
    have hidne : y.id ≠ ex.id := fun hid =>
      hyne (List.inj_on_of_nodup_map hnodup hy hexmem hid)
    simp only [hmatch, Bool.not_false]
    simp [hidne]

/-- C3: in connect-line mode with a pending start node, clicking the same
node cancels the selection and leaves everything unchanged; clicking a
different node of the same kind raises the alert, resets the selection and
leaves the connections unchanged; clicking the opposite kind toggles the
connection for the property/pin pair — appending a fresh connection when the
pair is not connected, and removing the pair's connection when it is (the
latter under distinct ids and at most one connection per pair). -/
theorem handleNodeClick_connect_spec (startNode : ConnectNode)
    (conns : List YarnConnection) (dt : Option DeleteTarget)
    (newId id : String) (ty : NodeType) (lat lng : ℚ) :
    (id = startNode.id →
      handleNodeClick MapBoardMode.connectLine (some startNode) conns dt newId id ty lat lng =
        { connectStartNode := none, yarnConnections := conns, alert := none,
          deleteTarget := dt, propertySelect := none }) ∧
    (id ≠ startNode.id → ty = startNode.type →
      handleNodeClick MapBoardMode.connectLine (some startNode) conns dt newId id ty lat lng =
        { connectStartNode := none, yarnConnections := conns,
          alert := some "请连接【房源】与【生活圈图钉】。", deleteTarget := dt,
          propertySelect := none }) ∧
    (∀ propId pinId : String,
      ((startNode.type = NodeType.property ∧ ty = NodeType.pin ∧
          propId = startNode.id ∧ pinId = id) ∨
        (startNode.type = NodeType.pin ∧ ty = NodeType.property ∧
          propId = id ∧ pinId = startNode.id)) →
      id ≠ startNode.id →
      (isConnected conns propId pinId = false →
        handleNodeClick MapBoardMode.connectLine (some startNode) conns dt newId id ty lat lng =
          { connectStartNode := none,
            yarnConnections :=
              conns ++ [{ id := newId, propertyId := propId, pinId := pinId }],
            alert := none, deleteTarget := dt, propertySelect := none } ∧
        isConnected (conns ++ [{ id := newId, propertyId := propId, pinId := pinId }])
          propId pinId = true) ∧
      ((conns.map YarnConnection.id).Nodup →
        conns.countP (fun y => y.propertyId == propId && y.pinId == pinId) ≤ 1 →
        isConnected conns propId pinId = true →
        handleNodeClick MapBoardMode.connectLine (some startNode) conns dt newId id ty lat lng =
          { connectStartNode := none,
            yarnConnections :=
              conns.filter (fun y => !(y.propertyId == propId && y.pinId == pinId)),
            alert := none, deleteTarget := dt, propertySelect := none } ∧
        isConnected (conns.filter (fun y => !(y.propertyId == propId && y.pinId == pinId)))
          propId pinId = false)) := by
  refine ⟨?_, ?_, ?_⟩
  · intro hid
    simp [handleNodeClick, hid]
  · intro hid hty
    have hcond : ¬ (startNode.id = id) := fun h => hid h.symm
    cases hsty : startNode.type <;> rw [hsty] at hty <;>
      simp [handleNodeClick, hcond, hsty, hty]
  · intro propId pinId hdisj hid
    have hcond : ¬ (startNode.id = id) := fun h => hid h.symm
    have hred : handleNodeClick MapBoardMode.connectLine (some startNode) conns dt newId id
        ty lat lng =
        { connectStartNode := none,
          yarnConnections := toggleConnection conns newId propId pinId,
          alert := none, deleteTarget := dt, propertySelect := none } := by
      rcases hdisj with ⟨h1, h2, h3, h4⟩ | ⟨h1, h2, h3, h4⟩ <;>
        subst h3 <;> subst h4 <;> subst h2 <;>
        simp [handleNodeClick, hcond, h1]
    constructor
    · intro hnc
      refine ⟨?_, ?_⟩
      · rw [hred, toggleConnection_not_connected conns newId propId pinId hnc]
      · simp [isConnected]
    · intro hnodup huniq hconn
      refine ⟨?_, ?_⟩
      · rw [hred, toggleConnection_connected conns newId propId pinId hnodup huniq hconn]
      · simp only [isConnected, List.any_eq_false]
        intro y hy
        have h2 := (List.mem_filter.mp hy).2
        simp only [Bool.not_eq_true'] at h2
        simp [h2]

/-- Witness for C3: cancelling by clicking the start node again, and creating
a connection by clicking a pin after starting from a property. -/
theorem handleNodeClick_connect_spec_witness :
    (handleNodeClick MapBoardMode.connectLine
        (some { id := "n1", type := NodeType.property, lat := 0, lng := 0 })
        [] none "9" "n1" NodeType.property 0 0 =
      { connectStartNode := none, yarnConnections := [], alert := none,
        deleteTarget := none, propertySelect := none }) ∧
    (handleNodeClick MapBoardMode.connectLine
        (some { id := "n1", type := NodeType.property, lat := 0, lng := 0 })
        [] none "9" "n2" NodeType.pin 0 0 =
      { connectStartNode := none,
        yarnConnections := [{ id := "9", propertyId := "n1", pinId := "n2" }],
        alert := none, deleteTarget := none, propertySelect := none }) := by
  constructor
  · exact (handleNodeClick_connect_spec
      { id := "n1", type := NodeType.property, lat := 0, lng := 0 }
      [] none "9" "n1" NodeType.property 0 0).1 rfl
  · have h := ((handleNodeClick_connect_spec
      { id := "n1", type := NodeType.property, lat := 0, lng := 0 }
      [] none "9" "n2" NodeType.pin 0 0).2.2 "n1" "n2"
      (Or.inl ⟨rfl, rfl, rfl, rfl⟩) (by decide)).1 (by decide)
    exact h.1

/-- C4 counterexample: toggling the same pair twice does not restore the
original collection — the re-created connection carries a fresh id. -/
theorem toggleConnection_twice_changes_id :
    toggleConnection
        (toggleConnection [{ id := "1", propertyId := "p1", pinId := "l1" }] "2" "p1" "l1")
        "3" "p1" "l1" ≠
      [({ id := "1", propertyId := "p1", pinId := "l1" } : YarnConnection)] := by
  decide

/-- C4 (amended): under pairwise-distinct connection ids, a fresh first id
and at most one connection for the pair, toggling the same pair twice
restores the collection exactly when the pair was not connected (create then
remove), and in general restores which pairs are connected, though a
re-created connection carries a new id. -/
theorem toggleConnection_twice_spec (conns : List YarnConnection)
    (id1 id2 propId pinId : String)
    (hnodup : (conns.map YarnConnection.id).Nodup)
    (hfresh : ∀ y ∈ conns, y.id ≠ id1)
    (huniq : conns.countP (fun y => y.propertyId == propId && y.pinId == pinId) ≤ 1) :
    (isConnected conns propId pinId = false →
      toggleConnection (toggleConnection conns id1 propId pinId) id2 propId pinId = conns) ∧
    (∀ P L : String,
      isConnected (toggleConnection (toggleConnection conns id1 propId pinId) id2 propId pinId)
        P L = isConnected conns P L) := by
  have hA : isConnected conns propId pinId = false →
      toggleConnection (toggleConnection conns id1 propId pinId) id2 propId pinId = conns := by
    intro h
    rw [toggleConnection_not_connected conns id1 propId pinId h]
    have hn : conns.find? (fun y => y.propertyId == propId && y.pinId == pinId) = none := by
      rw [List.find?_eq_none]
      simp only [isConnected] at h
      rw [List.any_eq_false] at h
      exact h
    have hfind : (conns ++
          [({ id := id1, propertyId := propId, pinId := pinId } : YarnConnection)]).find?
        (fun y => y.propertyId == propId && y.pinId == pinId) =
        some { id := id1, propertyId := propId, pinId := pinId } := by
      rw [List.find?_append, hn]
      simp [List.find?]
    simp only [toggleConnection, hfind]
    rw [List.filter_append]
    have e1 : conns.filter (fun y => !(y.id == id1)) = conns := by
      rw [List.filter_eq_self]
      intro y hy
      simp [hfresh y hy]
    have e2 : ([({ id := id1, propertyId := propId, pinId := pinId } : YarnConnection)]).filter
        (fun y => !(y.id == id1)) = [] := by
      simp
    rw [e1, e2, List.append_nil]
  refine ⟨hA, ?_⟩
  intro P L
  cases hconn : isConnected conns propId pinId with
  | false => rw [hA hconn]
  | true =>
    rw [toggleConnection_connected conns id1 propId pinId hnodup huniq hconn]
    have hn2 : (conns.filter (fun y => !(y.propertyId == propId && y.pinId == pinId))).find?
        (fun y => y.propertyId == propId && y.pinId == pinId) = none := by
      rw [List.find?_eq_none]
      intro y hy
      have h2 := (List.mem_filter.mp hy).2
      simp only [Bool.not_eq_true'] at h2
      simp [h2]
    simp only [toggleConnection, hn2]
    simp only [isConnected, List.any_append]
    by_cases hPL : P = propId ∧ L = pinId
    · obtain ⟨hP, hL⟩ := hPL
      subst hP
      subst hL
      simp only [isConnected] at hconn
      rw [hconn]
      simp
    · have hq2 : (propId == P && pinId == L) = false := by
        rcases not_and_or.mp hPL with h | h
        · have hbe : (propId == P) = false := by
            rw [beq_eq_false_iff_ne]
            exact fun hh => h hh.symm
          simp [hbe]
        · have hbe : (pinId == L) = false := by
            rw [beq_eq_false_iff_ne]
            exact fun hh => h hh.symm
          simp [hbe]
      have hmain : (conns.filter
          (fun y => !(y.propertyId == propId && y.pinId == pinId))).any
          (fun y => y.propertyId == P && y.pinId == L) =
          conns.any (fun y => y.propertyId == P && y.pinId == L) := by
        cases hcq : conns.any (fun y => y.propertyId == P && y.pinId == L) with
        | false =>
          rw [List.any_eq_false] at hcq ⊢
          intro y hy
          exact hcq y (List.mem_filter.mp hy).1
        | true =>
          obtain ⟨y, hy, hqy⟩ := List.any_eq_true.mp hcq
          refine List.any_eq_true.mpr ⟨y, ?_, hqy⟩
          refine List.mem_filter.mpr ⟨hy, ?_⟩
          have hqy' : y.propertyId = P ∧ y.pinId = L := by
            simpa [Bool.and_eq_true, beq_iff_eq] using hqy
          simp only [Bool.not_eq_true']
          rcases not_and_or.mp hPL with h | h
          · have hbe : (y.propertyId == propId) = false := by
              rw [beq_eq_false_iff_ne, hqy'.1]
              exact h
            simp [hbe]
          · have hbe : (y.pinId == pinId) = false := by
              rw [beq_eq_false_iff_ne, hqy'.2]
              exact h
            simp [hbe]
      simp only [List.any_cons, List.any_nil, Bool.or_false, hmain, hq2]

/-- Witness for C4: a create-then-remove double toggle on a one-element
collection restores it exactly. -/
theorem toggleConnection_twice_spec_witness :
    toggleConnection
        (toggleConnection [{ id := "1", propertyId := "a", pinId := "b" }] "7" "p" "l")
        "8" "p" "l" =
      [({ id := "1", propertyId := "a", pinId := "b" } : YarnConnection)] :=
  (toggleConnection_twice_spec [{ id := "1", propertyId := "a", pinId := "b" }]
    "7" "8" "p" "l" (by decide) (by decide) (by decide)).1 (by decide)

/-- The double-`jsMod` expression normalises any angle to its representative
in `[0, 45)` relative to the floor multiple of 45. -/
theorem jsMod_norm (d : ℚ) :
    jsMod (jsMod d 45 + 45) 45 = d - 45 * ⌊d / 45⌋ := by
  unfold jsMod jsTrunc
  by_cases hd : 0 ≤ d / 45
  · rw [if_pos hd]
    set m : ℤ := ⌊d / 45⌋ with hm
    have hml : (m : ℚ) ≤ d / 45 := Int.floor_le _
    have hmu : d / 45 < (m : ℚ) + 1 := Int.lt_floor_add_one _
    have h1 : 45 * (m : ℚ) ≤ d := by nlinarith
    have h2 : d < 45 * ((m : ℚ) + 1) := by nlinarith
    have hx : 0 ≤ (d - 45 * (m : ℚ) + 45) / 45 := by
      apply div_nonneg _ (by norm_num)
      linarith
    rw [if_pos hx]
    have harg : (d - 45 * (m : ℚ) + 45) / 45 = d / 45 + (1 - (m : ℚ)) := by ring
    rw [harg]
    have hfl : ⌊d / 45 + (1 - (m : ℚ))⌋ = 1 := by
      rw [show (1 - (m : ℚ)) = ((1 - m : ℤ) : ℚ) by push_cast; ring,
        Int.floor_add_int, ← hm]
      omega
    rw [hfl]
    push_cast
    ring
  · rw [if_neg hd]
    set m : ℤ := ⌈d / 45⌉ with hm
    have hml : d / 45 ≤ (m : ℚ) := Int.le_ceil _
    have hmu : (m : ℚ) - 1 < d / 45 := by
      have := Int.ceil_lt_add_one (d / 45)
      linarith
    have h1 : d ≤ 45 * (m : ℚ) := by nlinarith
    have h2 : 45 * ((m : ℚ) - 1) < d := by nlinarith
    have hx : 0 ≤ (d - 45 * (m : ℚ) + 45) / 45 := by
      apply div_nonneg _ (by norm_num)
      linarith
    rw [if_pos hx]
    have harg : (d - 45 * (m : ℚ) + 45) / 45 = d / 45 + (1 - (m : ℚ)) := by ring
    rw [harg]
    have hfl : ⌊d / 45 + (1 - (m : ℚ))⌋ = ⌊d / 45⌋ + (1 - m) := by
      rw [show (1 - (m : ℚ)) = ((1 - m : ℤ) : ℚ) by push_cast; ring,
        Int.floor_add_int]
    rw [hfl]
    push_cast
    ring

/-- The remainder of an angle relative to the floor multiple of 45 lies in
`[0, 45)`. -/
theorem floor45_remainder_bounds (d : ℚ) :
    0 ≤ d - 45 * ⌊d / 45⌋ ∧ d - 45 * ⌊d / 45⌋ < 45 := by
  have hml : ((⌊d / 45⌋ : ℤ) : ℚ) ≤ d / 45 := Int.floor_le _
  have hmu : d / 45 < ((⌊d / 45⌋ : ℤ) : ℚ) + 1 := Int.lt_floor_add_one _
  constructor <;> nlinarith

/-- Snapping specification: an angle strictly within 5 of a multiple of 45 is
sent exactly to that multiple, and an angle at distance at least 5 from every
multiple of 45 is left unchanged. -/
theorem snapRotationDegrees_spec (d : ℚ) :
    ((∃ k : ℤ, |d - 45 * k| < 5) →
      ∃ k : ℤ, snapRotationDegrees d = 45 * k ∧ |d - 45 * k| < 5) ∧
    ((∀ k : ℤ, 5 ≤ |d - 45 * k|) → snapRotationDegrees d = d) := by
  have hnorm := jsMod_norm d
  have hbounds := floor45_remainder_bounds d
  set m : ℤ := ⌊d / 45⌋ with hm
  set f : ℚ := d - 45 * (m : ℚ) with hf
  have hf0 : 0 ≤ f := hbounds.1
  have hf1 : f < 45 := hbounds.2
  have hexp : snapRotationDegrees d =
      if jsMod (jsMod d 45 + 45) 45 > 45 - 5 then
        (if jsMod (jsMod d 45 + 45) 45 < 5 then d - jsMod (jsMod d 45 + 45) 45 else d) +
          (45 - jsMod (jsMod d 45 + 45) 45)
      else
        (if jsMod (jsMod d 45 + 45) 45 < 5 then d - jsMod (jsMod d 45 + 45) 45 else d) :=
    rfl
  rw [hnorm] at hexp
  refine ⟨?_, ?_⟩
  · rintro ⟨k, hk⟩
    by_cases h5 : f < 5
    · have h40 : ¬ f > 45 - 5 := by
        push_neg
        linarith
      refine ⟨m, ?_, ?_⟩
      · rw [hexp, if_neg h40, if_pos h5, hf]
        ring
      · rw [show d - 45 * (m : ℚ) = f from hf.symm, abs_of_nonneg hf0]
        exact h5
    · by_cases h40 : f > 45 - 5
      · refine ⟨m + 1, ?_, ?_⟩
        · rw [hexp, if_pos h40, if_neg h5]
          push_cast
          rw [hf]
          ring
        · have heq : d - 45 * ((m + 1 : ℤ) : ℚ) = f - 45 := by
            push_cast
            rw [hf]
            ring
          rw [heq, abs_of_nonpos (by linarith)]
          linarith
      · exfalso
        have hf5 : 5 ≤ f := le_of_not_lt h5
        have hf40 : f ≤ 40 := by
          push_neg at h40
          linarith
        have hdk : d - 45 * (k : ℚ) = f + 45 * ((m : ℚ) - k) := by
          rw [hf]
          ring
        rcases le_or_lt k m with hkm | hkm
        · have hc : (0 : ℚ) ≤ (m : ℚ) - k := by
            have : (k : ℚ) ≤ m := by exact_mod_cast hkm
            linarith
          have hge : 5 ≤ d - 45 * (k : ℚ) := by
            have h45 : 0 ≤ 45 * ((m : ℚ) - k) := by nlinarith
            rw [hdk]
            linarith
          have habs : 5 ≤ |d - 45 * (k : ℚ)| := le_trans hge (le_abs_self _)
          linarith
        · have hc : (m : ℚ) - k ≤ -1 := by
            have : m - k ≤ -1 := by omega
            exact_mod_cast this
          have hle : d - 45 * (k : ℚ) ≤ -5 := by
            have h45 : 45 * ((m : ℚ) - k) ≤ -45 := by nlinarith
            rw [hdk]
            linarith
          have habs : 5 ≤ |d - 45 * (k : ℚ)| := by
            rw [abs_of_nonpos (by linarith)]
            linarith
          linarith
  · intro hall
    have h1 := hall m
    have h2 := hall (m + 1)
    have hf5 : 5 ≤ f := by
      rw [show d - 45 * ((m : ℤ) : ℚ) = f from hf.symm, abs_of_nonneg hf0] at h1
      exact h1
    have hf40 : f ≤ 40 := by
      have heq : d - 45 * ((m + 1 : ℤ) : ℚ) = f - 45 := by
        push_cast
        rw [hf]
        ring
      rw [heq, abs_of_nonpos (by linarith)] at h2
      linarith
    rw [hexp, if_neg (by push_neg; linarith), if_neg (by push_neg; linarith)]

/-- C6: on a rotation commit, when the unsnapped angle (stored rotation plus
wrapped pointer delta) is strictly within 5° of a multiple of 45°, the
committed angle is exactly that multiple; otherwise the angle is committed
unsnapped. -/
theorem commitRotation_snap_spec (rotation startAngle currentAngle : ℚ) :
    ((∃ k : ℤ, |rotation + wrapDelta (currentAngle - startAngle) - 45 * k| < 5) →
      ∃ k : ℤ, commitRotation rotation startAngle currentAngle = 45 * k ∧
        |rotation + wrapDelta (currentAngle - startAngle) - 45 * k| < 5) ∧
    ((∀ k : ℤ, 5 ≤ |rotation + wrapDelta (currentAngle - startAngle) - 45 * k|) →
      commitRotation rotation startAngle currentAngle =
        rotation + wrapDelta (currentAngle - startAngle)) := by
  have h := snapRotationDegrees_spec (rotation + wrapDelta (currentAngle - startAngle))
  exact ⟨fun hex => h.1 hex, fun hall => h.2 hall⟩

/-- Witness for C6: an unsnapped angle of 44° commits to 45° and an unsnapped
angle of 40° is committed unchanged. -/
theorem commitRotation_snap_witness :
    (∃ k : ℤ, commitRotation 0 0 44 = 45 * k ∧
      |(0 : ℚ) + wrapDelta (44 - 0) - 45 * k| < 5) ∧
    commitRotation 0 0 40 = 0 + wrapDelta (40 - 0) := by
  constructor
  · apply (commitRotation_snap_spec 0 0 44).1
    refine ⟨1, ?_⟩
    norm_num [wrapDelta]
  · apply (commitRotation_snap_spec 0 0 40).2
    intro k
    have h40 : (0 : ℚ) + wrapDelta (40 - 0) = 40 := by norm_num [wrapDelta]
    rw [h40]
    rcases le_or_lt k 0 with hk | hk
    · have hk' : (k : ℚ) ≤ 0 := by exact_mod_cast hk
      rw [abs_of_nonneg (by nlinarith)]
      nlinarith
    · have hk' : (1 : ℚ) ≤ k := by exact_mod_cast hk
      rw [abs_of_nonpos (by nlinarith)]
      nlinarith

/-- C7 counterexample: at exactly 1000 the label is rendered in metres
(`"1000m"`), not in kilometres, because the code tests `d > 1000` strictly. -/
theorem formatDistance_boundary_metres :
    formatDistance 1000 = "1000m" ∧ formatDistance 1000 ≠ "1.0km" := by
  have hj : jsRound 1000 = 1000 := by
    unfold jsRound
    rw [Int.floor_eq_iff]
    constructor <;> norm_num
  have hfmt : formatDistance 1000 = toString (1000 : ℤ) ++ "m" := by
    simp only [formatDistance]
    rw [if_neg (by norm_num), hj]
  constructor
  · rw [hfmt]
    rfl
  · rw [hfmt]
    decide

/-- C7 (amended): distances up to and including 1000 are rendered as whole
metres (the integer within half a metre of the true distance, suffixed
`"m"`), and only distances strictly above 1000 are rendered as kilometres to
one decimal place (the tenth within one twentieth of a kilometre of the true
distance, suffixed `"km"`). -/
theorem formatDistance_spec (d : ℚ) :
    (d ≤ 1000 → ∃ n : ℤ, |d - n| ≤ 1 / 2 ∧ formatDistance d = toString n ++ "m") ∧
    (1000 < d → ∃ t : ℤ, |d / 1000 - (t : ℚ) / 10| ≤ 1 / 20 ∧
      formatDistance d = toString (t / 10) ++ "." ++ toString (t % 10) ++ "km") := by
  constructor
  · intro h
    refine ⟨jsRound d, ?_, ?_⟩
    · have h1 : ((jsRound d : ℤ) : ℚ) ≤ d + 1 / 2 := Int.floor_le _
      have h2 : d + 1 / 2 < ((jsRound d : ℤ) : ℚ) + 1 := Int.lt_floor_add_one _
      rw [abs_le]
      constructor <;> linarith
    · simp only [formatDistance]
      rw [if_neg (not_lt.mpr h)]
  · intro h
    refine ⟨⌊10 * (d / 1000) + 1 / 2⌋, ?_, ?_⟩
    · have h1 : ((⌊10 * (d / 1000) + 1 / 2⌋ : ℤ) : ℚ) ≤ 10 * (d / 1000) + 1 / 2 :=
        Int.floor_le _
      have h2 : 10 * (d / 1000) + 1 / 2 < ((⌊10 * (d / 1000) + 1 / 2⌋ : ℤ) : ℚ) + 1 :=
        Int.lt_floor_add_one _
      rw [abs_le]
      constructor <;> linarith
    · simp only [formatDistance, jsToFixed1]
      rw [if_pos h]

/-- Witness for C7's amended theorem at 999 metres and 1500 metres. -/
theorem formatDistance_spec_witness :
    (∃ n : ℤ, |(999 : ℚ) - n| ≤ 1 / 2 ∧ formatDistance 999 = toString n ++ "m") ∧
    (∃ t : ℤ, |(1500 : ℚ) / 1000 - (t : ℚ) / 10| ≤ 1 / 20 ∧
      formatDistance 1500 = toString (t / 10) ++ "." ++ toString (t % 10) ++ "km") :=
  ⟨(formatDistance_spec 999).1 (by norm_num), (formatDistance_spec 1500).2 (by norm_num)⟩

/-- C2: the vertical displacement of the Bezier control point below the
midpoint equals `min(0.15 × pixelDist, 80)`; a pixel distance of 100 gives a
sag of 15 and a pixel distance of 1000 gives a sag of 80. -/
theorem yarnSag_spec (startPx endPx : LPoint) :
    (yarnControlPoint startPx endPx).y - ((startPx.add endPx).divideBy 2).y =
      min (0.15 * LPoint.distanceTo startPx endPx) 80 ∧
    (LPoint.distanceTo startPx endPx = 100 →
      (yarnControlPoint startPx endPx).y - ((startPx.add endPx).divideBy 2).y = 15) ∧
    (LPoint.distanceTo startPx endPx = 1000 →
      (yarnControlPoint startPx endPx).y - ((startPx.add endPx).divideBy 2).y = 80) := by
  have hbase : (yarnControlPoint startPx endPx).y - ((startPx.add endPx).divideBy 2).y =
      sagPx startPx endPx := by
    show ((startPx.add endPx).divideBy 2).y + sagPx startPx endPx -
      ((startPx.add endPx).divideBy 2).y = sagPx startPx endPx
    ring
  refine ⟨?_, ?_, ?_⟩
  · rw [hbase]
    simp only [sagPx]
    rw [mul_comm]
  · intro h
    rw [hbase]
    simp only [sagPx, h]
    norm_num [min_def]
  · intro h
    rw [hbase]
    simp only [sagPx, h]
    norm_num [min_def]

/-- Witness for C2 at horizontal pixel distances 100 and 1000. -/
theorem yarnSag_spec_witness :
    (yarnControlPoint ⟨0, 0⟩ ⟨100, 0⟩).y -
      ((LPoint.add ⟨0, 0⟩ ⟨100, 0⟩).divideBy 2).y = 15 ∧
    (yarnControlPoint ⟨0, 0⟩ ⟨1000, 0⟩).y -
      ((LPoint.add ⟨0, 0⟩ ⟨1000, 0⟩).divideBy 2).y = 80 := by
  have h1 : LPoint.distanceTo ⟨0, 0⟩ ⟨100, 0⟩ = 100 := by
    simp only [LPoint.distanceTo]
    rw [show ((100 : ℝ) - 0) ^ 2 + ((0 : ℝ) - 0) ^ 2 = 100 ^ 2 by norm_num]
    exact Real.sqrt_sq (by norm_num)
  have h2 : LPoint.distanceTo ⟨0, 0⟩ ⟨1000, 0⟩ = 1000 := by
    simp only [LPoint.distanceTo]
    rw [show ((1000 : ℝ) - 0) ^ 2 + ((0 : ℝ) - 0) ^ 2 = 1000 ^ 2 by norm_num]
    exact Real.sqrt_sq (by norm_num)
  exact ⟨(yarnSag_spec ⟨0, 0⟩ ⟨100, 0⟩).2.1 h1, (yarnSag_spec ⟨0, 0⟩ ⟨1000, 0⟩).2.2 h2⟩
